import Mathlib

/-!
Height map generator: layer compositing and normalisation.

A shallow embedding of `CppHeightMapGenerator.cpp`
(`PopulateGenerationSettingsForConfig`, `NormalizeMap`,
`SumGeneratedHeightMaps`, `GenerateMap`) and the properties of the
compositing pipeline.

Modelling conventions.

* A C++ `float` holding a finite number is a rational `ℚ`; `+`, `-`, `*`
  are exact. Rounding is not modelled.
* The merge works on finite samples and weights. A `float` division is the
  one operation of the merge and of the normalisation that can leave the
  finite numbers, so its result is an `FVal`: a finite quotient, or the IEEE
  outcome of dividing by zero (`+inf`, `-inf`, `NaN`).
* The values `std::stof` parses from the configuration can be `NaN` or
  infinite. `PopulateGenerationSettingsForConfig` is therefore written once
  over a type `F` of float values with the operations it uses (`FloatLike`),
  and read at `F = FVal`, where `NaN` and the infinities exist, and at
  `F = ℚ`, the finite numbers the merge works on.
* In `PopulateGenerationSettingsForConfig` an `int` is an `Int` brought back
  into 32 bits by `wrapInt` after each arithmetic step and conversion; loop
  counters are natural numbers.
* `std::vector<T>` is `List T`; `v[i]` with `i` outside the vector is
  undefined behaviour in C++ and is the error `Err.outOfRange` here.
* `for (int k = 0; k < n; ++k) body` is `forLoop n body`, threading the
  mutable state through the iterations in increasing order of `k`.
* `rand()` reads the next element of an explicit stream of draws.
-/

namespace HeightMapGen

/-! ## Values, vectors and loops -/

/-- A `float` value: a finite number or an IEEE special value. -/
inductive FVal where
  | fin (q : ℚ)
  | posInf
  | negInf
  | nan
  deriving DecidableEq, Repr

/-- IEEE division of two finite values with exact finite quotients:
`a / 0` is `NaN` for `a = 0`, `+inf` for `a > 0` and `-inf` for `a < 0`. -/
def fdiv (a b : ℚ) : FVal :=
  if b = 0 then
    (if a = 0 then FVal.nan else if 0 < a then FVal.posInf else FVal.negInf)
  else FVal.fin (a / b)

/-- IEEE addition of two `float` values, exact on finite numbers. -/
def FVal.add : FVal → FVal → FVal
  | FVal.fin a, FVal.fin b => FVal.fin (a + b)
  | FVal.nan, _ => FVal.nan
  | _, FVal.nan => FVal.nan
  | FVal.posInf, FVal.negInf => FVal.nan
  | FVal.negInf, FVal.posInf => FVal.nan
  | FVal.posInf, _ => FVal.posInf
  | _, FVal.posInf => FVal.posInf
  | FVal.negInf, _ => FVal.negInf
  | _, FVal.negInf => FVal.negInf

/-- IEEE comparison `a < b`: every comparison with `NaN` is false. -/
def FVal.lt : FVal → FVal → Bool
  | FVal.fin a, FVal.fin b => decide (a < b)
  | FVal.negInf, FVal.fin _ => true
  | FVal.negInf, FVal.posInf => true
  | FVal.fin _, FVal.posInf => true
  | _, _ => false

/-- The `float` operations `PopulateGenerationSettingsForConfig` applies to
the configured values: a literal or computed finite number, `+`, and the `<`
that `std::clamp` uses. -/
class FloatLike (F : Type) where
  ofRat : ℚ → F
  add : F → F → F
  lt : F → F → Bool

/-- The finite numbers: exact addition and the usual order. -/
instance ratFloatLike : FloatLike ℚ where
  ofRat := fun q => q
  add := fun a b => a + b
  lt := fun a b => decide (a < b)

/-- The `float` values with `NaN` and the infinities. -/
instance fvalFloatLike : FloatLike FVal where
  ofRat := FVal.fin
  add := FVal.add
  lt := FVal.lt

/-- The only failure of the embedded code: an index outside a vector. -/
inductive Err where
  | outOfRange
  deriving DecidableEq, Repr

/-- The source type `HeightMap = std::vector<std::vector<float>>` holding
finite samples; `m[x][y]` is row `x`, entry `y`. -/
abbrev HeightMap := List (List ℚ)

/-- A height map after the division of `NormalizeMap`. -/
abbrev NormalizedMap := List (List FVal)

/-- Entry `m[x][y]` when both indices are in range. -/
def getCell {α : Type} (m : List (List α)) (x y : Nat) : Option α :=
  (m[x]?).bind (fun row => row[y]?)

/-- Read of `m[x][y]`. -/
def readCell {α : Type} (m : List (List α)) (x y : Nat) : Except Err α :=
  match getCell m x y with
  | some v => Except.ok v
  | none => Except.error Err.outOfRange

/-- Assignment `m[x][y] = v`. -/
def writeCell {α : Type} (m : List (List α)) (x y : Nat) (v : α) :
    Except Err (List (List α)) :=
  match m[x]? with
  | none => Except.error Err.outOfRange
  | some row =>
    if y < row.length then Except.ok (m.set x (row.set y v))
    else Except.error Err.outOfRange

/-- Loop `for (int k = 0; k < n; ++k) body(k)` over a state: iterations
`0 .. n-1` run in order; the first failing iteration aborts the loop. -/
def forLoop {σ : Type} : Nat → (Nat → σ → Except Err σ) → σ → Except Err σ
  | 0, _, s => Except.ok s
  | n + 1, body, s =>
    match forLoop n body s with
    | Except.error e => Except.error e
    | Except.ok s' => body n s'

/-- A map is square of side `n`: `n` rows of `n` entries. -/
def Square {α : Type} (n : Nat) (m : List (List α)) : Prop :=
  m.length = n ∧ ∀ row ∈ m, row.length = n

instance {α : Type} (n : Nat) (m : List (List α)) : Decidable (Square n m) := by
  unfold Square; infer_instance

/-! ## NormalizeMap -/

/-- The lambda `InverseLerp` of `NormalizeMap`:
`(value - xx) / (yy - xx)`. -/
def InverseLerp (xx yy value : ℚ) : FVal :=
  fdiv (value - xx) (yy - xx)

/-- Body of the inner loop of `NormalizeMap` (lines 126-132). -/
def normalizeCell (inputMap : HeightMap) (minValue maxValue : ℚ) (x y : Nat)
    (map : NormalizedMap) : Except Err NormalizedMap :=
  match readCell inputMap x y with
  | Except.error e => Except.error e
  | Except.ok v =>
    let value := InverseLerp minValue maxValue v
    writeCell map x y value

/-- Function `NormalizeMap` (lines 117-136): an `inputMap.size()` by
`inputMap.size()` map of zeros is filled cell by cell, `y` in the outer loop
and `x` in the inner loop. -/
def NormalizeMap (inputMap : HeightMap) (minValue maxValue : ℚ) :
    Except Err NormalizedMap :=
  let map : NormalizedMap :=
    List.replicate inputMap.length (List.replicate inputMap.length (FVal.fin 0))
  forLoop inputMap.length
    (fun y map =>
      forLoop inputMap.length
        (fun x map => normalizeCell inputMap minValue maxValue x y map) map)
    map

/-! ## Generation settings -/

/-- The enumeration `GenerationSettings::GenerationMethodType`. -/
inductive GenerationMethodType where
  | PerlinNoise
  | Sine
  | Cosine
  | Ridged
  | Billow
  deriving DecidableEq, Repr

/-- Modelled from the spec: the class `GenerationSettings`, whose header is
not among the sources. Per the spec's LayerSettings it holds the method kind,
octave count, scale, weight, persistence, smoothing, the grid side length,
the four boolean flags and the `active` flag. The constructor called at line
88 stores its seven arguments; the flags start `false` and the layer starts
active. `F` is the type of the four `float` members. -/
structure GenerationSettingsOf (F : Type) where
  methodType : GenerationMethodType
  octaves : Int
  scale : F
  weight : F
  persistance : F
  smoothing : F
  chunkSize : Nat
  active : Bool := true
  firstOctaveAsMask : Bool := false
  firstHeightMapAsMask : Bool := false
  invertFirstHeightMapMask : Bool := false
  subtractFromMap : Bool := false
  deriving DecidableEq, Repr

/-- Settings whose `float` members are finite numbers, as the merge reads
them. -/
abbrev GenerationSettings := GenerationSettingsOf ℚ

/-- Accessor `getChunkSize()`. -/
abbrev GenerationSettingsOf.getChunkSize {F : Type} (s : GenerationSettingsOf F) :
    Nat := s.chunkSize

/-- Accessor `getWeight()`. -/
abbrev GenerationSettingsOf.getWeight {F : Type} (s : GenerationSettingsOf F) :
    F := s.weight

/-- Accessor `getMethodType()`. -/
abbrev GenerationSettingsOf.getMethodType {F : Type} (s : GenerationSettingsOf F) :
    GenerationMethodType := s.methodType

/-- Accessor `isFirstHeightMapAsMask()`. -/
abbrev GenerationSettingsOf.isFirstHeightMapAsMask {F : Type}
    (s : GenerationSettingsOf F) : Bool :=
  s.firstHeightMapAsMask

/-- Accessor `isInvertFirstHeightMapMask()`. -/
abbrev GenerationSettingsOf.isInvertFirstHeightMapMask {F : Type}
    (s : GenerationSettingsOf F) : Bool :=
  s.invertFirstHeightMapMask

/-- Accessor `isSubtractFromMap()`. -/
abbrev GenerationSettingsOf.isSubtractFromMap {F : Type}
    (s : GenerationSettingsOf F) : Bool :=
  s.subtractFromMap

/-! ## SumGeneratedHeightMaps -/

/-- The mutable locals of `SumGeneratedHeightMaps`: the accumulator `map` and
the running `minValue` / `maxValue`. -/
structure MergeState where
  map : HeightMap
  minValue : ℚ
  maxValue : ℚ
  deriving DecidableEq, Repr

/-- Lines 168-171: the running extrema after the cell took the value `v`.
The minimum is only examined when the maximum was not raised. -/
def updateMinMax (st : MergeState) (map : HeightMap) (v : ℚ) : MergeState :=
  if v > st.maxValue then { map := map, minValue := st.minValue, maxValue := v }
  else if v < st.minValue then { map := map, minValue := v, maxValue := st.maxValue }
  else { map := map, minValue := st.minValue, maxValue := st.maxValue }

/-- Body of the innermost loop of `SumGeneratedHeightMaps` (lines 154-171)
for layer `i` and cell `(x, y)`. The mask is read only when the layer has
`isFirstHeightMapAsMask()`. -/
def mergeCell (heightMaps : List HeightMap)
    (generationSettings : List GenerationSettings)
    (globalFirstOctaveMask : HeightMap) (i x y : Nat) (st : MergeState) :
    Except Err MergeState :=
  match heightMaps[i]?, generationSettings[i]? with
  | some tempMap, some gs =>
    match readCell tempMap x y with
    | Except.error e => Except.error e
    | Except.ok t =>
      let added : Except Err ℚ :=
        if gs.isFirstHeightMapAsMask then
          match readCell globalFirstOctaveMask x y with
          | Except.error e => Except.error e
          | Except.ok g =>
            Except.ok (t * gs.getWeight
              * (if gs.isInvertFirstHeightMapMask then 1 - g else g))
        else Except.ok (t * gs.getWeight)
      match added with
      | Except.error e => Except.error e
      | Except.ok addedVal =>
        match readCell st.map x y with
        | Except.error e => Except.error e
        | Except.ok cur =>
          let v := cur + (if gs.isSubtractFromMap then -addedVal else addedVal)
          match writeCell st.map x y v with
          | Except.error e => Except.error e
          | Except.ok map => Except.ok (updateMinMax st map v)
  | _, _ => Except.error Err.outOfRange

/-- Lines 140-174 of `SumGeneratedHeightMaps`: everything before the final
call of `NormalizeMap`. The accumulator has side
`generationSettings[0].getChunkSize()`, the mask is `heightMaps[0]`, and the
loops run over the layers `i`, then `y`, then `x`. The loop bound
`map.size()` is that side `n` throughout: the map is never resized. -/
def mergeHeightMaps (heightMaps : List HeightMap)
    (generationSettings : List GenerationSettings) : Except Err MergeState :=
  match generationSettings[0]?, heightMaps[0]? with
  | some gs0, some globalFirstOctaveMask =>
    let n := gs0.getChunkSize
    let map : HeightMap := List.replicate n (List.replicate n 0)
    forLoop heightMaps.length
      (fun i st =>
        forLoop n
          (fun y st =>
            forLoop n
              (fun x st =>
                mergeCell heightMaps generationSettings globalFirstOctaveMask i x y st)
              st)
          st)
      { map := map, minValue := 10000, maxValue := -10000 }
  | _, _ => Except.error Err.outOfRange

/-- Function `SumGeneratedHeightMaps` (lines 138-177). -/
def SumGeneratedHeightMaps (heightMaps : List HeightMap)
    (generationSettings : List GenerationSettings) : Except Err NormalizedMap :=
  match mergeHeightMaps heightMaps generationSettings with
  | Except.error e => Except.error e
  | Except.ok st => NormalizeMap st.map st.minValue st.maxValue

/-! ## Configuration and GenerateMap -/

/-- Modelled from the spec: the structure `dh::Config::Configuration`, whose
header is not among the sources; the fields are those `main` and
`PopulateGenerationSettingsForConfig` read and write. The randomization
factors are finite: `GetRandInRange` converts them to `int`, which is
undefined for `NaN` and for the infinities. `F` is the type of the `float`
members of the settings. -/
structure ConfigurationOf (F : Type) where
  mapSize : Nat
  randomizeMasks : Bool
  randomizeActiveLayers : Bool
  octavesRandomizationFactor : Int
  scaleRandomizationFactor : ℚ
  weightRandomizationFactor : ℚ
  persistanceRandomizationFactor : ℚ
  smoothingRandomizationFactor : ℚ
  generationSettingsArr : List (GenerationSettingsOf F)

/-- A configuration whose settings hold finite numbers, as `GenerateMap`
reads it. -/
abbrev Configuration := ConfigurationOf ℚ

/-- Function `GenerateMap` (lines 179-208). The noise methods and their
`CreateHeightMap` are not among the sources: `createHeightMap` stands for the
call `generationBasePointer->CreateHeightMap(...)` of the method object the
`switch` builds from `genSettings`. -/
def GenerateMap (createHeightMap : GenerationMethodType → GenerationSettings → HeightMap)
    (config : Configuration) : Except Err NormalizedMap :=
  let maps : List HeightMap :=
    config.generationSettingsArr.map
      (fun genSettings => createHeightMap genSettings.getMethodType genSettings)
  SumGeneratedHeightMaps maps config.generationSettingsArr

/-! ## PopulateGenerationSettingsForConfig -/

/-- The C library generator `rand()`: a stream of draws and the number of
draws taken so far. -/
structure RandState where
  draws : Nat → Nat
  pos : Nat

/-- One call of `rand()`. -/
def rand (r : RandState) : Nat × RandState :=
  (r.draws r.pos, { draws := r.draws, pos := r.pos + 1 })

/-- A 32-bit `int`: the value is brought back into `-2^31 .. 2^31 - 1` by
two's complement wrap-around (overflow itself is undefined in C++). -/
def wrapInt (z : Int) : Int :=
  (z + 2147483648) % 4294967296 - 2147483648

/-- Conversion `static_cast<int>(float)` of a finite value: truncation toward
zero. -/
def truncToInt (q : ℚ) : Int :=
  wrapInt (if 0 ≤ q then ⌊q⌋ else ⌈q⌉)

/-- The lambda `GetRandInRange` (lines 75-81). `rand()` is called only when
the two integer bounds differ; `%` is the C++ remainder, truncated toward
zero. The result is `0.0f` or an `int` times `precision`: a finite number. -/
def GetRandInRange (min max precision : ℚ) (r : RandState) : ℚ × RandState :=
  let iMin : Int := truncToInt (min * (1 / precision))
  let iMax : Int := truncToInt (max * (1 / precision))
  if wrapInt (iMin - iMax) = 0 then (0, r)
  else
    let d := rand r
    (((wrapInt (iMin + Int.tmod (d.1 : Int) (wrapInt (iMax - iMin))) : Int) : ℚ)
      * precision, d.2)

/-- The template `std::clamp(v, lo, hi)`, which is
`(v < lo) ? lo : (hi < v) ? hi : v` for the `<` of the argument type. -/
def clamp {α : Type} (lt : α → α → Bool) (v lo hi : α) : α :=
  if lt v lo then lo else if lt hi v then hi else v

/-- The `<` of `int`. -/
def intLt (a b : Int) : Bool := decide (a < b)

/-- The values `PopulateGenerationSettingsForConfig` parses from the
subproperties of one generation method (lines 57-73); the INI handler is not
among the sources. The four `float` values are results of `std::stof`, which
returns `NaN` for the text `nan` and an infinity for the text `inf`. -/
structure MethodProperties (F : Type) where
  useFirstOctaveAsMask : Bool
  useFirstHeightMapsAsMask : Bool
  invertFirstHeightMapMask : Bool
  subtractFromMap : Bool
  octaves : Int
  scale : F
  weight : F
  persistance : F
  smoothing : F

/-- The string constants `Categories::methodType_*`, declared in a header
that is not among the sources. -/
structure Categories where
  methodType_sine : String
  methodType_cosine : String
  methodType_ridged : String
  methodType_billow : String

/-- Lines 46-55: the method type selected by the name of the property. -/
def methodTypeOf (c : Categories) (name : String) : GenerationMethodType :=
  if name = c.methodType_sine then GenerationMethodType.Sine
  else if name = c.methodType_cosine then GenerationMethodType.Cosine
  else if name = c.methodType_ridged then GenerationMethodType.Ridged
  else if name = c.methodType_billow then GenerationMethodType.Billow
  else GenerationMethodType.PerlinNoise

/-- Lines 82-96: the five random offsets are drawn in order and the
`GenerationSettings` object is built from the clamped sums. -/
def buildSettings {F : Type} [FloatLike F] (c : Categories)
    (config : ConfigurationOf F) (name : String) (p : MethodProperties F)
    (r : RandState) : GenerationSettingsOf F × RandState :=
  let o := GetRandInRange (-(config.octavesRandomizationFactor : ℚ))
    (config.octavesRandomizationFactor : ℚ) 1 r
  let octavesRandomization : Int := truncToInt o.1
  let sc := GetRandInRange (-config.scaleRandomizationFactor)
    config.scaleRandomizationFactor (1 / 100) o.2
  let w := GetRandInRange (-config.weightRandomizationFactor)
    config.weightRandomizationFactor (1 / 100) sc.2
  let pe := GetRandInRange (-config.persistanceRandomizationFactor)
    config.persistanceRandomizationFactor (1 / 100) w.2
  let sm := GetRandInRange (-config.smoothingRandomizationFactor)
    config.smoothingRandomizationFactor (1 / 100) pe.2
  ({ methodType := methodTypeOf c name
     octaves := clamp intLt (wrapInt (p.octaves + octavesRandomization)) 0 12
     scale := clamp FloatLike.lt (FloatLike.add p.scale (FloatLike.ofRat sc.1))
       (FloatLike.ofRat 1) (FloatLike.ofRat 1000)
     weight := clamp FloatLike.lt (FloatLike.add p.weight (FloatLike.ofRat w.1))
       (FloatLike.ofRat (1 / 10)) (FloatLike.ofRat 10)
     persistance := clamp FloatLike.lt
       (FloatLike.add p.persistance (FloatLike.ofRat pe.1))
       (FloatLike.ofRat (1 / 10)) (FloatLike.ofRat 1)
     smoothing := clamp FloatLike.lt
       (FloatLike.add p.smoothing (FloatLike.ofRat sm.1))
       (FloatLike.ofRat (1 / 10)) (FloatLike.ofRat 1)
     chunkSize := config.mapSize }, sm.2)

/-- Lines 103-112: the four flags, redrawn when `randomizeMasks` is set,
are stored in the settings. -/
def applyMasks {F : Type} (config : ConfigurationOf F) (p : MethodProperties F)
    (settings : GenerationSettingsOf F) (r : RandState) :
    GenerationSettingsOf F × RandState :=
  if config.randomizeMasks then
    let a := rand r
    let b := rand a.2
    let c := rand b.2
    let d := rand c.2
    ({ settings with
       firstOctaveAsMask := decide (a.1 % 2 ≠ 0)
       firstHeightMapAsMask := decide (b.1 % 2 ≠ 0)
       invertFirstHeightMapMask := decide (c.1 % 2 ≠ 0)
       subtractFromMap := decide (d.1 % 2 ≠ 0) }, d.2)
  else
    ({ settings with
       firstOctaveAsMask := p.useFirstOctaveAsMask
       firstHeightMapAsMask := p.useFirstHeightMapsAsMask
       invertFirstHeightMapMask := p.invertFirstHeightMapMask
       subtractFromMap := p.subtractFromMap }, r)

/-- Line 98: the condition `randomizeActiveLayers && rand() % 10 > 6` under
which the layer is deactivated, for the generator state `r` reached after
the settings were built. `rand()` is not called when `randomizeActiveLayers`
is unset. -/
def deactivated {F : Type} (config : ConfigurationOf F) (r : RandState) : Bool :=
  config.randomizeActiveLayers && decide ((rand r).1 % 10 > 6)

/-- One iteration of the loop of `PopulateGenerationSettingsForConfig`
(lines 39-115). The result is `none` when the layer is deactivated and the
iteration ends with `continue` (lines 98-101); `rand()` is called for the
activation only when `randomizeActiveLayers` is set. -/
def populateLayer {F : Type} [FloatLike F] (c : Categories)
    (config : ConfigurationOf F) (prop : String × MethodProperties F)
    (r : RandState) : Option (GenerationSettingsOf F) × RandState :=
  let b := buildSettings c config prop.1 prop.2 r
  if config.randomizeActiveLayers then
    let d := rand b.2
    if d.1 % 10 > 6 then (none, d.2)
    else
      let m := applyMasks config prop.2 b.1 d.2
      (some m.1, m.2)
  else
    let m := applyMasks config prop.2 b.1 b.2
    (some m.1, m.2)

/-- The loop of lines 39-115 over the subproperties: each layer that stays
active is appended to `generationSettingsArr`. -/
def populateLoop {F : Type} [FloatLike F] (c : Categories)
    (config : ConfigurationOf F) :
    List (String × MethodProperties F) → List (GenerationSettingsOf F) →
    RandState → List (GenerationSettingsOf F) × RandState
  | [], arr, r => (arr, r)
  | prop :: rest, arr, r =>
    match populateLayer c config prop r with
    | (none, r') => populateLoop c config rest arr r'
    | (some settings, r') => populateLoop c config rest (arr ++ [settings]) r'

/-- Function `PopulateGenerationSettingsForConfig` (lines 28-116).
`methodProperty` is the result of `confHandler.GetProperty(...)`: `none` for
`nullptr`, else the parsed subproperties in iteration order. -/
def PopulateGenerationSettingsForConfig {F : Type} [FloatLike F]
    (c : Categories)
    (methodProperty : Option (List (String × MethodProperties F)))
    (config : ConfigurationOf F) (r : RandState) :
    ConfigurationOf F × RandState :=
  match methodProperty with
  | none => (config, r)
  | some subproperties =>
    let res := populateLoop c config subproperties [] r
    ({ config with generationSettingsArr := res.1 }, res.2)

/-! ## Reference definitions taken from the specification -/

/-- The mask factor `m_i` as the specification words it: `1` without
masking, the reference sample, or one minus the reference sample. -/
def specMask (gs : GenerationSettings) (ref : ℚ) : ℚ :=
  if gs.firstHeightMapAsMask then
    (if gs.invertFirstHeightMapMask then 1 - ref else ref)
  else 1

/-- The sign `s_i` as the specification words it. -/
def specSign (gs : GenerationSettings) : ℚ :=
  if gs.subtractFromMap then -1 else 1

/-- Sample `m[x][y]`, or `0` outside the map. -/
def cellD (m : HeightMap) (x y : Nat) : ℚ :=
  (getCell m x y).getD 0

/-- The unsigned contribution `rawMaps[i][cell] * weight_i * mask_i` of
layer `i`, as the specification words it; the mask reference is
`rawMaps[0]`. -/
def specUnsigned (rawMaps : List HeightMap) (settings : List GenerationSettings)
    (i x y : Nat) : ℚ :=
  match rawMaps[i]?, settings[i]? with
  | some raw, some gs =>
    cellD raw x y * gs.weight * specMask gs (cellD (rawMaps.headD []) x y)
  | _, _ => 0

/-- The term `s_i * rawMaps[i][cell] * weight_i * m_i` of layer `i`, as the
specification words it. -/
def specTerm (rawMaps : List HeightMap) (settings : List GenerationSettings)
    (i x y : Nat) : ℚ :=
  match rawMaps[i]?, settings[i]? with
  | some raw, some gs =>
    specSign gs * cellD raw x y * gs.weight
      * specMask gs (cellD (rawMaps.headD []) x y)
  | _, _ => 0

/-- The accumulator the specification describes: the sum of the terms of all
layers. -/
def specAccumulator (rawMaps : List HeightMap) (settings : List GenerationSettings)
    (x y : Nat) : ℚ :=
  ((List.range rawMaps.length).map (fun i => specTerm rawMaps settings i x y)).sum

/-- Settings list with the `subtractFromMap` flag of layer `i` set to `b`
and nothing else changed. -/
def withSubtract (settings : List GenerationSettings) (i : Nat) (b : Bool) :
    List GenerationSettings :=
  match settings[i]? with
  | none => settings
  | some gs => settings.set i { gs with subtractFromMap := b }

/-- True minimum over the cells of a map (`none` for a map without cells). -/
def trueMin (m : HeightMap) : Option ℚ :=
  match m.flatten with
  | [] => none
  | v :: vs => some (vs.foldl min v)

/-- True maximum over the cells of a map (`none` for a map without cells). -/
def trueMax (m : HeightMap) : Option ℚ :=
  match m.flatten with
  | [] => none
  | v :: vs => some (vs.foldl max v)

/-- A cell value is a finite number in `[0, 1]`. -/
def FVal.inUnit : FVal → Prop
  | FVal.fin q => 0 ≤ q ∧ q ≤ 1
  | _ => False

/-- A `float` value is a finite number in `[lo, hi]`. -/
def FVal.within (lo hi : ℚ) : FVal → Prop
  | FVal.fin q => lo ≤ q ∧ q ≤ hi
  | _ => False

/-- The bound the specification gives for the octave count. -/
def OctavesInBounds {F : Type} (s : GenerationSettingsOf F) : Prop :=
  0 ≤ s.octaves ∧ s.octaves ≤ 12

/-- The bounds the specification gives for the numeric fields of a layer. -/
def InBounds (s : GenerationSettingsOf FVal) : Prop :=
  OctavesInBounds s ∧ FVal.within 1 1000 s.scale ∧
  FVal.within (1 / 10) 10 s.weight ∧
  FVal.within (1 / 10) 1 s.persistance ∧
  FVal.within (1 / 10) 1 s.smoothing

/-- A layer of weight 1 without masking or subtraction on a 2 by 2 grid. -/
def plainLayer : GenerationSettings :=
  { methodType := GenerationMethodType.Sine, octaves := 1, scale := 1,
    weight := 1, persistance := 1 / 2, smoothing := 1 / 2, chunkSize := 2 }

/-- A layer of weight 1/2 masked by the first height map on a 2 by 2 grid. -/
def maskedLayer : GenerationSettings :=
  { methodType := GenerationMethodType.Cosine, octaves := 1, scale := 1,
    weight := 1 / 2, persistance := 1 / 2, smoothing := 1 / 2, chunkSize := 2,
    firstHeightMapAsMask := true }

/-- A raw map whose first visited cell holds the strict minimum. -/
def dipMap : HeightMap := [[0, 1 / 2], [1, 1 / 4]]

/-- A raw map whose cells increase in the order the merge visits them. -/
def risingMap : HeightMap := [[0, 1 / 2], [1 / 4, 1]]

/-- A layer of weight 1 without masking or subtraction on a 1 by 1 grid. -/
def unitLayer : GenerationSettings :=
  { methodType := GenerationMethodType.Sine, octaves := 1, scale := 1,
    weight := 1, persistance := 1 / 2, smoothing := 1 / 2, chunkSize := 1 }

/-- A configuration without any layer settings. -/
def emptyConfig : Configuration :=
  { mapSize := 2, randomizeMasks := false, randomizeActiveLayers := false,
    octavesRandomizationFactor := 0, scaleRandomizationFactor := 0,
    weightRandomizationFactor := 0, persistanceRandomizationFactor := 0,
    smoothingRandomizationFactor := 0, generationSettingsArr := [] }

/-- Names of the method categories used by the concrete inputs. -/
def sampleCategories : Categories :=
  { methodType_sine := "sine", methodType_cosine := "cosine",
    methodType_ridged := "ridged", methodType_billow := "billow" }

/-- The settings expected from `wildProperties`: every value clamped. -/
def wildSettings : GenerationSettingsOf FVal :=
  { methodType := GenerationMethodType.Sine, octaves := 12,
    scale := FVal.fin 1000, weight := FVal.fin (1 / 10),
    persistance := FVal.fin (1 / 2), smoothing := FVal.fin 1, chunkSize := 2 }

/-- Parsed properties of a plain layer of weight 1. -/
def plainProperties : MethodProperties ℚ :=
  { useFirstOctaveAsMask := false, useFirstHeightMapsAsMask := false,
    invertFirstHeightMapMask := false, subtractFromMap := false,
    octaves := 1, scale := 1, weight := 1, persistance := 1 / 2,
    smoothing := 1 / 2 }

/-- Parsed properties of a layer of weight 1 masked by the first height
map. -/
def maskedProperties : MethodProperties ℚ :=
  { useFirstOctaveAsMask := false, useFirstHeightMapsAsMask := true,
    invertFirstHeightMapMask := false, subtractFromMap := false,
    octaves := 1, scale := 1, weight := 1, persistance := 1 / 2,
    smoothing := 1 / 2 }

/-- A generator whose first draw is `7` and whose later draws are `0`. -/
def sevenRand : RandState :=
  { draws := fun k => if k = 0 then 7 else 0, pos := 0 }

/-- A configuration of side 2 that draws the activation of every layer and
randomizes nothing else. -/
def activationConfig : Configuration :=
  { mapSize := 2, randomizeMasks := false, randomizeActiveLayers := true,
    octavesRandomizationFactor := 0, scaleRandomizationFactor := 0,
    weightRandomizationFactor := 0, persistanceRandomizationFactor := 0,
    smoothingRandomizationFactor := 0, generationSettingsArr := [] }

/-- Raw maps per method for the concrete inputs: the sine map is constant
`5`, the cosine map is `dipMap`, every other map is constant `1`. -/
def sampleCreate (t : GenerationMethodType) (_s : GenerationSettings) :
    HeightMap :=
  match t with
  | GenerationMethodType.Sine => [[5, 5], [5, 5]]
  | GenerationMethodType.Cosine => dipMap
  | _ => [[1, 1], [1, 1]]

/-! ## Cell access lemmas -/

theorem getCell_of_square {α : Type} {n : Nat} {m : List (List α)}
    (hm : Square n m) {x y : Nat} (hx : x < n) (hy : y < n) :
    ∃ v, getCell m x y = some v := by
  obtain ⟨hlen, hrows⟩ := hm
  have hx' : x < m.length := by omega
  have hrow : (m[x]).length = n := hrows _ (List.getElem_mem _)
  have hy' : y < (m[x]).length := by omega
  refine ⟨(m[x])[y], ?_⟩
  simp [getCell, List.getElem?_eq_getElem hx', List.getElem?_eq_getElem hy']

theorem readCell_of_getCell {α : Type} {m : List (List α)} {x y : Nat} {v : α}
    (h : getCell m x y = some v) : readCell m x y = Except.ok v := by
  simp [readCell, h]

theorem square_replicate {α : Type} (n : Nat) (a : α) :
    Square n (List.replicate n (List.replicate n a)) := by
  constructor
  · simp
  · intro row hrow
    rw [List.mem_replicate] at hrow
    simp [hrow.2]

theorem getCell_replicate {α : Type} (n : Nat) (a : α) {x y : Nat}
    (hx : x < n) (hy : y < n) :
    getCell (List.replicate n (List.replicate n a)) x y = some a := by
  simp [getCell, List.getElem?_replicate, hx, hy]

/-- Writing a cell of a square map succeeds, keeps the shape and changes
exactly that cell. -/
theorem writeCell_of_square {α : Type} {n : Nat} {m : List (List α)}
    (hm : Square n m) {x y : Nat} (hx : x < n) (hy : y < n) (v : α) :
    ∃ m', writeCell m x y v = Except.ok m' ∧ Square n m' ∧
      ∀ x' y', getCell m' x' y' =
        if x' = x ∧ y' = y then some v else getCell m x' y' := by
  obtain ⟨hlen, hrows⟩ := hm
  have hx' : x < m.length := by omega
  have hrow : (m[x]).length = n := hrows _ (List.getElem_mem _)
  have hy' : y < (m[x]).length := by omega
  refine ⟨m.set x ((m[x]).set y v), ?_, ⟨?_, ?_⟩, ?_⟩
  · simp [writeCell, List.getElem?_eq_getElem hx', hy']
  · simpa using hlen
  · intro row hrow'
    rcases List.mem_or_eq_of_mem_set hrow' with h | h
    · exact hrows _ h
    · rw [h]; simpa using hrow
  · intro x' y'
    by_cases hxx : x' = x
    · subst hxx
      by_cases hyy : y' = y
      · subst hyy
        simp [getCell, List.getElem?_set, hx', hy']
      · have hyy' : ¬ y = y' := fun h => hyy h.symm
        simp [getCell, List.getElem?_set, hx', hyy, hyy',
          List.getElem?_eq_getElem hx']
    · have hxx' : ¬ x = x' := fun h => hxx h.symm
      simp [getCell, List.getElem?_set, hxx, hxx']


/-! ## Loops over the cells of a square grid -/

theorem updateMinMax_map (st : MergeState) (map : HeightMap) (v : ℚ) :
    (updateMinMax st map v).map = map := by
  unfold updateMinMax
  split_ifs <;> rfl

/-- Inner loop over `x` for a fixed `y`: when every step rewrites its own
cell by `g`, the first `k` cells of column `y` are rewritten and the rest is
untouched. -/
theorem forLoop_row {σ β : Type} (n : Nat) (grid : σ → List (List β))
    (step : Nat → Nat → σ → Except Err σ) (g : Nat → Nat → β → β)
    (hstep : ∀ s x y, Square n (grid s) → x < n → y < n →
      ∃ s', step x y s = Except.ok s' ∧ Square n (grid s') ∧
        ∀ x' y', getCell (grid s') x' y' =
          if x' = x ∧ y' = y then (getCell (grid s) x' y').map (g x' y')
          else getCell (grid s) x' y')
    (y : Nat) (hy : y < n) (k : Nat) (hk : k ≤ n) (s : σ)
    (hs : Square n (grid s)) :
    ∃ s', forLoop k (fun x st => step x y st) s = Except.ok s' ∧
      Square n (grid s') ∧
      ∀ x' y', getCell (grid s') x' y' =
        if x' < k ∧ y' = y then (getCell (grid s) x' y').map (g x' y')
        else getCell (grid s) x' y' := by
  induction k with
  | zero => exact ⟨s, rfl, hs, by simp⟩
  | succ k ih =>
    obtain ⟨s1, h1, hsq1, hc1⟩ := ih (by omega)
    obtain ⟨s2, h2, hsq2, hc2⟩ := hstep s1 k y hsq1 (by omega) hy
    refine ⟨s2, ?_, hsq2, ?_⟩
    · simp only [forLoop, h1, h2]
    · intro x' y'
      rw [hc2, hc1]
      by_cases hy' : y' = y
      · by_cases hx' : x' = k
        · subst hx'; simp [hy']
        · have : (x' < k + 1) ↔ (x' < k) := by omega
          simp [hx', hy', this]
      · simp [hy']

/-- Outer loop over `y` with the full inner loop over `x`: the first `k`
columns are rewritten by `g`. -/
theorem forLoop_grid {σ β : Type} (n : Nat) (grid : σ → List (List β))
    (step : Nat → Nat → σ → Except Err σ) (g : Nat → Nat → β → β)
    (hstep : ∀ s x y, Square n (grid s) → x < n → y < n →
      ∃ s', step x y s = Except.ok s' ∧ Square n (grid s') ∧
        ∀ x' y', getCell (grid s') x' y' =
          if x' = x ∧ y' = y then (getCell (grid s) x' y').map (g x' y')
          else getCell (grid s) x' y')
    (k : Nat) (hk : k ≤ n) (s : σ) (hs : Square n (grid s)) :
    ∃ s', forLoop k (fun y st => forLoop n (fun x st => step x y st) st) s
        = Except.ok s' ∧
      Square n (grid s') ∧
      ∀ x' y', getCell (grid s') x' y' =
        if x' < n ∧ y' < k then (getCell (grid s) x' y').map (g x' y')
        else getCell (grid s) x' y' := by
  induction k with
  | zero => exact ⟨s, rfl, hs, by simp⟩
  | succ k ih =>
    obtain ⟨s1, h1, hsq1, hc1⟩ := ih (by omega)
    obtain ⟨s2, h2, hsq2, hc2⟩ :=
      forLoop_row n grid step g hstep k (by omega) n (le_refl n) s1 hsq1
    refine ⟨s2, ?_, hsq2, ?_⟩
    · simp only [forLoop, h1, h2]
    · intro x' y'
      rw [hc2, hc1]
      by_cases hx' : x' < n
      · by_cases hy' : y' = k
        · subst hy'; simp [hx']
        · have : (y' < k + 1) ↔ (y' < k) := by omega
          simp [hx', hy', this]
      · simp [hx']

/-- The full double loop over a square grid rewrites every cell by `g`. -/
theorem forLoop_grid_full {σ β : Type} (n : Nat) (grid : σ → List (List β))
    (step : Nat → Nat → σ → Except Err σ) (g : Nat → Nat → β → β)
    (hstep : ∀ s x y, Square n (grid s) → x < n → y < n →
      ∃ s', step x y s = Except.ok s' ∧ Square n (grid s') ∧
        ∀ x' y', getCell (grid s') x' y' =
          if x' = x ∧ y' = y then (getCell (grid s) x' y').map (g x' y')
          else getCell (grid s) x' y')
    (s : σ) (hs : Square n (grid s)) :
    ∃ s', forLoop n (fun y st => forLoop n (fun x st => step x y st) st) s
        = Except.ok s' ∧
      Square n (grid s') ∧
      ∀ x y, x < n → y < n →
        getCell (grid s') x y = (getCell (grid s) x y).map (g x y) := by
  obtain ⟨s', h, hsq, hc⟩ := forLoop_grid n grid step g hstep n (le_refl n) s hs
  refine ⟨s', h, hsq, ?_⟩
  intro x y hx hy
  rw [hc]; simp [hx, hy]

/-! ## NormalizeMap on square maps -/

/-- On a square map `NormalizeMap` returns a map of the same side whose every
cell is the quotient computed by `InverseLerp` from the input cell. -/
theorem NormalizeMap_cells (n : Nat) (inputMap : HeightMap) (lo hi : ℚ)
    (hsq : Square n inputMap) :
    ∃ out, NormalizeMap inputMap lo hi = Except.ok out ∧ Square n out ∧
      ∀ x y, x < n → y < n →
        getCell out x y = some (InverseLerp lo hi (cellD inputMap x y)) := by
  have hlen : inputMap.length = n := hsq.1
  have hstep : ∀ (s : NormalizedMap) x y, Square n (id s) → x < n → y < n →
      ∃ s', normalizeCell inputMap lo hi x y s = Except.ok s' ∧ Square n (id s') ∧
        ∀ x' y', getCell (id s') x' y' =
          if x' = x ∧ y' = y then
            (getCell (id s) x' y').map
              ((fun a b _ => InverseLerp lo hi (cellD inputMap a b)) x' y')
          else getCell (id s) x' y' := by
    intro s x y hs hx hy
    simp only [id] at hs ⊢
    obtain ⟨v, hv⟩ := getCell_of_square hsq hx hy
    obtain ⟨w, hw⟩ := getCell_of_square hs hx hy
    obtain ⟨m', hm', hsq', hc'⟩ :=
      writeCell_of_square hs hx hy (InverseLerp lo hi v)
    refine ⟨m', ?_, hsq', ?_⟩
    · simp [normalizeCell, readCell_of_getCell hv, hm']
    · intro x' y'
      rw [hc']
      by_cases h : x' = x ∧ y' = y
      · obtain ⟨rfl, rfl⟩ := h
        simp [hw, cellD, hv]
      · simp [h]
  obtain ⟨out, hout, hsqo, hc⟩ :=
    forLoop_grid_full n id (fun x y s => normalizeCell inputMap lo hi x y s)
      (fun a b _ => InverseLerp lo hi (cellD inputMap a b)) hstep
      (List.replicate n (List.replicate n (FVal.fin 0)))
      (square_replicate n _)
  refine ⟨out, ?_, hsqo, ?_⟩
  · simpa [NormalizeMap, hlen] using hout
  · intro x y hx hy
    have := hc x y hx hy
    simp only [id] at this
    rw [this, getCell_replicate n _ hx hy]
    rfl

/-! ## The accumulator of SumGeneratedHeightMaps -/

/-- One cell step of the merge: on well-formed inputs it succeeds and adds
the term of layer `i` to the accumulator cell. -/
theorem mergeCell_step (n : Nat) (heightMaps : List HeightMap)
    (settings : List GenerationSettings) (mask : HeightMap) (i : Nat)
    (tempMap : HeightMap) (gs : GenerationSettings)
    (hmap : heightMaps[i]? = some tempMap) (hgs : settings[i]? = some gs)
    (hsqT : Square n tempMap) (hhead : heightMaps.headD [] = mask)
    (hsqM : Square n mask)
    (s : MergeState) (x y : Nat) (hs : Square n s.map) (hx : x < n) (hy : y < n) :
    ∃ s', mergeCell heightMaps settings mask i x y s = Except.ok s' ∧
      Square n s'.map ∧
      ∀ x' y', getCell s'.map x' y' =
        if x' = x ∧ y' = y then
          (getCell s.map x' y').map
            ((fun a b old => old + specTerm heightMaps settings i a b) x' y')
        else getCell s.map x' y' := by
  obtain ⟨t, ht⟩ := getCell_of_square hsqT hx hy
  obtain ⟨g, hg⟩ := getCell_of_square hsqM hx hy
  obtain ⟨cur, hcur⟩ := getCell_of_square hs hx hy
  have hterm : specTerm heightMaps settings i x y =
      (if gs.subtractFromMap then
        -(if gs.firstHeightMapAsMask then
            t * gs.weight * (if gs.invertFirstHeightMapMask then 1 - g else g)
          else t * gs.weight)
       else
        (if gs.firstHeightMapAsMask then
            t * gs.weight * (if gs.invertFirstHeightMapMask then 1 - g else g)
          else t * gs.weight)) := by
    simp only [specTerm, hmap, hgs, hhead, cellD, ht, hg, Option.getD_some,
      specSign, specMask]
    split_ifs <;> ring
  obtain ⟨m', hm', hsq', hc'⟩ :=
    writeCell_of_square hs hx hy (cur + specTerm heightMaps settings i x y)
  refine ⟨updateMinMax s m' (cur + specTerm heightMaps settings i x y), ?_, ?_, ?_⟩
  · unfold mergeCell
    simp only [hmap, hgs, readCell_of_getCell ht, readCell_of_getCell hcur]
    by_cases hmask : gs.firstHeightMapAsMask = true
    · simp only [hmask, if_true, readCell_of_getCell hg]
      rw [hterm] at hm'
      simp only [hmask, if_true] at hm'
      rw [hm', hterm]
      simp only [hmask, if_true]
    · simp only [hmask]
      rw [hterm] at hm'
      simp only [hmask] at hm'
      simp only [Bool.false_eq_true, if_false] at hm' ⊢
      rw [hm', hterm]
      simp only [hmask, Bool.false_eq_true, if_false]
  · rw [updateMinMax_map]; exact hsq'
  · intro x' y'
    rw [updateMinMax_map, hc']
    by_cases h : x' = x ∧ y' = y
    · obtain ⟨rfl, rfl⟩ := h
      simp [hcur]
    · simp [h]

/-- The loop over the layers: after `k` layers every accumulator cell has
grown by the sum of the terms of the layers `0 .. k-1`. -/
theorem mergeLayers_cells (n : Nat) (heightMaps : List HeightMap)
    (settings : List GenerationSettings) (mask : HeightMap)
    (hsq : ∀ m ∈ heightMaps, Square n m)
    (hlen : settings.length = heightMaps.length)
    (hhead : heightMaps.headD [] = mask) (hsqM : Square n mask)
    (k : Nat) (hk : k ≤ heightMaps.length) (s : MergeState)
    (hs : Square n s.map) :
    ∃ s', forLoop k
        (fun i st => forLoop n (fun y st => forLoop n
          (fun x st => mergeCell heightMaps settings mask i x y st) st) st) s
        = Except.ok s' ∧
      Square n s'.map ∧
      ∀ x y, x < n → y < n →
        getCell s'.map x y = (getCell s.map x y).map (fun old => old +
          ((List.range k).map (fun i => specTerm heightMaps settings i x y)).sum) := by
  induction k with
  | zero =>
    refine ⟨s, rfl, hs, ?_⟩
    intro x y _ _
    simp
  | succ k ih =>
    obtain ⟨s1, h1, hsq1, hc1⟩ := ih (by omega)
    have hk1 : k < heightMaps.length := by omega
    have hk2 : k < settings.length := by omega
    have hmap : heightMaps[k]? = some heightMaps[k] := List.getElem?_eq_getElem hk1
    have hgs : settings[k]? = some settings[k] := List.getElem?_eq_getElem hk2
    have hsqT : Square n heightMaps[k] := hsq _ (List.getElem_mem _)
    obtain ⟨s2, h2, hsq2, hc2⟩ :=
      forLoop_grid_full n MergeState.map
        (fun x y st => mergeCell heightMaps settings mask k x y st)
        (fun a b old => old + specTerm heightMaps settings k a b)
        (fun st x y hst hx hy =>
          mergeCell_step n heightMaps settings mask k _ _ hmap hgs hsqT hhead hsqM
            st x y hst hx hy)
        s1 hsq1
    refine ⟨s2, ?_, hsq2, ?_⟩
    · simp only [forLoop, h1, h2]
    · intro x y hx hy
      rw [hc2 x y hx hy, hc1 x y hx hy]
      cases getCell s.map x y with
      | none => rfl
      | some old =>
        simp only [Option.map_some', List.range_succ, List.map_append,
          List.sum_append, List.map_cons, List.map_nil, List.sum_cons,
          List.sum_nil, add_zero, add_assoc]

/-- On a non-empty list of square maps of the configured side with one
settings entry per map, the merge succeeds and its accumulator is the sum the
specification describes. -/
theorem mergeHeightMaps_cells (n : Nat) (heightMaps : List HeightMap)
    (settings : List GenerationSettings)
    (hne : heightMaps ≠ [])
    (hlen : settings.length = heightMaps.length)
    (hsq : ∀ m ∈ heightMaps, Square n m)
    (hchunk : ∀ gs0, settings[0]? = some gs0 → gs0.getChunkSize = n) :
    ∃ st, mergeHeightMaps heightMaps settings = Except.ok st ∧
      Square n st.map ∧
      ∀ x y, x < n → y < n →
        getCell st.map x y = some (specAccumulator heightMaps settings x y) := by
  have hpos : 0 < heightMaps.length := List.length_pos.mpr hne
  have hpos2 : 0 < settings.length := by omega
  have hmap0 : heightMaps[0]? = some heightMaps[0] := List.getElem?_eq_getElem hpos
  have hgs0 : settings[0]? = some settings[0] := List.getElem?_eq_getElem hpos2
  have hn : (settings[0]).getChunkSize = n := hchunk _ hgs0
  have hhead : heightMaps.headD [] = heightMaps[0] := by
    cases heightMaps with
    | nil => exact absurd rfl hne
    | cons a l => rfl
  have hsqM : Square n heightMaps[0] := hsq _ (List.getElem_mem _)
  obtain ⟨st, hst, hsqs, hc⟩ :=
    mergeLayers_cells n heightMaps settings heightMaps[0] hsq hlen hhead hsqM
      heightMaps.length (le_refl _)
      { map := List.replicate n (List.replicate n 0),
        minValue := 10000, maxValue := -10000 }
      (square_replicate n _)
  refine ⟨st, ?_, hsqs, ?_⟩
  · unfold mergeHeightMaps
    simp only [hmap0, hgs0]
    simp only [GenerationSettingsOf.getChunkSize] at hn
    simp only [GenerationSettingsOf.getChunkSize, hn]
    exact hst
  · intro x y hx hy
    rw [hc x y hx hy, getCell_replicate n _ hx hy]
    simp [specAccumulator]

/-! ## Evaluation helpers -/

theorem forLoop_one {σ : Type} (body : Nat → σ → Except Err σ) (s : σ) :
    forLoop 1 body s = body 0 s := rfl

theorem forLoop_two {σ : Type} (body : Nat → σ → Except Err σ) (s : σ) :
    forLoop 2 body s =
      (match body 0 s with
       | Except.error e => Except.error e
       | Except.ok s' => body 1 s') := rfl

theorem replicate_two {α : Type} (a : α) : List.replicate 2 a = [a, a] := rfl

theorem cellD_of_getCell {m : HeightMap} {x y : Nat} {c : ℚ}
    (h : getCell m x y = some c) : cellD m x y = c := by
  simp [cellD, h]

/-- Two square maps of the same side with the same cells are equal. -/
theorem square_ext {α : Type} {n : Nat} {a b : List (List α)}
    (ha : Square n a) (hb : Square n b)
    (h : ∀ x y, x < n → y < n → getCell a x y = getCell b x y) : a = b := by
  apply List.ext_getElem (by rw [ha.1, hb.1])
  intro x hx1 hx2
  have hra : (a[x]).length = n := ha.2 _ (List.getElem_mem _)
  have hrb : (b[x]).length = n := hb.2 _ (List.getElem_mem _)
  apply List.ext_getElem (by rw [hra, hrb])
  intro y hy1 hy2
  have hxy := h x y (by rw [← ha.1]; exact hx1) (by rw [← hra]; exact hy1)
  simpa [getCell, List.getElem?_eq_getElem hx1, List.getElem?_eq_getElem hx2,
    List.getElem?_eq_getElem hy1, List.getElem?_eq_getElem hy2] using hxy

/-! ## Claims about NormalizeMap -/

/-- C2: for a square map of side `n` and `max ≠ min`, `NormalizeMap` returns
an `n` by `n` map whose cell `[x][y]` is `(map[x][y] - min) / (max - min)`. -/
theorem NormalizeMap_inverse_lerp (n : Nat) (inputMap : HeightMap)
    (minValue maxValue : ℚ) (hsq : Square n inputMap)
    (hne : maxValue ≠ minValue) :
    ∃ out, NormalizeMap inputMap minValue maxValue = Except.ok out ∧
      Square n out ∧
      ∀ x y, x < n → y < n →
        ∃ v, getCell inputMap x y = some v ∧
          getCell out x y
            = some (FVal.fin ((v - minValue) / (maxValue - minValue))) := by
  obtain ⟨out, hout, hsqo, hc⟩ := NormalizeMap_cells n inputMap minValue maxValue hsq
  refine ⟨out, hout, hsqo, ?_⟩
  intro x y hx hy
  obtain ⟨v, hv⟩ := getCell_of_square hsq hx hy
  refine ⟨v, hv, ?_⟩
  rw [hc x y hx hy, cellD_of_getCell hv]
  have hd : maxValue - minValue ≠ 0 := sub_ne_zero.mpr hne
  simp [InverseLerp, fdiv, hd]

/-- Witness for C2 on the 2 by 2 map `dipMap` with `min = 1/4`, `max = 1`. -/
theorem NormalizeMap_inverse_lerp_witness :
    Square 2 dipMap ∧ (1 : ℚ) ≠ 1 / 4 ∧
    ∃ out, NormalizeMap dipMap (1 / 4) 1 = Except.ok out ∧
      Square 2 out ∧
      ∀ x y, x < 2 → y < 2 →
        ∃ v, getCell dipMap x y = some v ∧
          getCell out x y = some (FVal.fin ((v - 1 / 4) / (1 - 1 / 4))) :=
  ⟨by decide, by norm_num,
    NormalizeMap_inverse_lerp 2 dipMap (1 / 4) 1 (by decide) (by norm_num)⟩

/-- On a square map of side `n` with `max = min = m` there is no special
case: `NormalizeMap` returns a map of the same side whose every cell is the
result of dividing `map[x][y] - m` by zero, that is `NaN` where
`map[x][y] = m`, `+inf` where it is larger and `-inf` where it is smaller; no
cell is the number `0`. -/
theorem NormalizeMap_degenerate (n : Nat) (inputMap : HeightMap) (m : ℚ)
    (hsq : Square n inputMap) :
    ∃ out, NormalizeMap inputMap m m = Except.ok out ∧ Square n out ∧
      ∀ x y, x < n → y < n →
        ∃ v, getCell inputMap x y = some v ∧
          getCell out x y
            = some (if v = m then FVal.nan
                    else if m < v then FVal.posInf else FVal.negInf) ∧
          getCell out x y ≠ some (FVal.fin 0) := by
  obtain ⟨out, hout, hsqo, hc⟩ := NormalizeMap_cells n inputMap m m hsq
  refine ⟨out, hout, hsqo, ?_⟩
  intro x y hx hy
  obtain ⟨v, hv⟩ := getCell_of_square hsq hx hy
  have hval : getCell out x y
      = some (if v = m then FVal.nan
              else if m < v then FVal.posInf else FVal.negInf) := by
    rw [hc x y hx hy, cellD_of_getCell hv]
    simp [InverseLerp, fdiv, sub_eq_zero]
  refine ⟨v, hv, hval, ?_⟩
  rw [hval]
  split_ifs <;> simp

/-- C4 (failing input): the flat 2 by 2 map of zeros with `min = max = 0`.
`NormalizeMap` divides `0` by `0` at every cell and returns `NaN` everywhere
instead of `0`; `SumGeneratedHeightMaps` reaches this call for a single layer
whose raw map is flat. -/
theorem NormalizeMap_flat_divides_by_zero :
    NormalizeMap [[0, 0], [0, 0]] 0 0
      = Except.ok [[FVal.nan, FVal.nan], [FVal.nan, FVal.nan]] ∧
    mergeHeightMaps [[[0, 0], [0, 0]]] [plainLayer]
      = Except.ok { map := [[0, 0], [0, 0]], minValue := 0, maxValue := 0 } ∧
    SumGeneratedHeightMaps [[[0, 0], [0, 0]]] [plainLayer]
      = Except.ok [[FVal.nan, FVal.nan], [FVal.nan, FVal.nan]] := by
  have hn : NormalizeMap [[0, 0], [0, 0]] 0 0
      = Except.ok [[FVal.nan, FVal.nan], [FVal.nan, FVal.nan]] := by
    simp [NormalizeMap, forLoop_two, replicate_two, normalizeCell, readCell,
      getCell, writeCell, InverseLerp, fdiv]
  have hm : mergeHeightMaps [[[0, 0], [0, 0]]] [plainLayer]
      = Except.ok { map := [[0, 0], [0, 0]], minValue := 0, maxValue := 0 } := by
    simp only [mergeHeightMaps, plainLayer, forLoop_one, List.getElem?_cons_zero,
      GenerationSettingsOf.getChunkSize, List.length_singleton, forLoop_two,
      replicate_two]
    simp [mergeCell, readCell, getCell, writeCell, updateMinMax]
  refine ⟨hn, hm, ?_⟩
  simp only [SumGeneratedHeightMaps, hm, hn]

/-- C9: for a square map, `NormalizeMap(map, 0, 1)` returns the identical
map, cell for cell. -/
theorem NormalizeMap_zero_one (n : Nat) (inputMap : HeightMap)
    (hsq : Square n inputMap) :
    NormalizeMap inputMap 0 1
      = Except.ok (inputMap.map (fun row => row.map FVal.fin)) := by
  obtain ⟨out, hout, hsqo, hc⟩ := NormalizeMap_cells n inputMap 0 1 hsq
  have hsqm : Square n (inputMap.map (fun row => row.map FVal.fin)) := by
    constructor
    · simpa using hsq.1
    · intro row hrow
      rw [List.mem_map] at hrow
      obtain ⟨r, hr, rfl⟩ := hrow
      simpa using hsq.2 r hr
  rw [hout]
  congr 1
  apply square_ext hsqo hsqm
  intro x y hx hy
  obtain ⟨v, hv⟩ := getCell_of_square hsq hx hy
  rw [hc x y hx hy, cellD_of_getCell hv]
  have hx' : x < inputMap.length := by rw [hsq.1]; exact hx
  simp only [getCell, List.getElem?_eq_getElem hx', Option.some_bind] at hv
  simp [getCell, List.getElem?_eq_getElem hx', hv, InverseLerp, fdiv]

/-- Witness for C9 on the 2 by 2 map `dipMap`. -/
theorem NormalizeMap_zero_one_witness :
    Square 2 dipMap ∧
    NormalizeMap dipMap 0 1
      = Except.ok (dipMap.map (fun row => row.map FVal.fin)) :=
  ⟨by decide, NormalizeMap_zero_one 2 dipMap (by decide)⟩

/-! ## Claims about the accumulator -/

/-- C1: for a non-empty list of square raw maps of the configured side with
one settings entry per map, the accumulator built before normalizing holds at
every cell the sum over all layers of
`s_i * rawMaps[i][cell] * weight_i * m_i`. -/
theorem SumGeneratedHeightMaps_accumulator (n : Nat)
    (heightMaps : List HeightMap) (settings : List GenerationSettings)
    (hne : heightMaps ≠ [])
    (hlen : settings.length = heightMaps.length)
    (hsq : ∀ m ∈ heightMaps, Square n m)
    (hchunk : ∀ gs0, settings[0]? = some gs0 → gs0.getChunkSize = n) :
    ∃ st, mergeHeightMaps heightMaps settings = Except.ok st ∧
      Square n st.map ∧
      ∀ x y, x < n → y < n →
        getCell st.map x y
          = some ((List.range heightMaps.length).map
              (fun i => specTerm heightMaps settings i x y)).sum :=
  mergeHeightMaps_cells n heightMaps settings hne hlen hsq hchunk

/-- Witness for C1: a plain layer and a masked layer on 2 by 2 maps. -/
theorem SumGeneratedHeightMaps_accumulator_witness :
    [dipMap, risingMap] ≠ [] ∧
    [plainLayer, maskedLayer].length = [dipMap, risingMap].length ∧
    (∀ m ∈ [dipMap, risingMap], Square 2 m) ∧
    ∃ st, mergeHeightMaps [dipMap, risingMap] [plainLayer, maskedLayer]
        = Except.ok st ∧
      Square 2 st.map ∧
      ∀ x y, x < 2 → y < 2 →
        getCell st.map x y
          = some ((List.range [dipMap, risingMap].length).map
              (fun i => specTerm [dipMap, risingMap] [plainLayer, maskedLayer]
                i x y)).sum :=
  ⟨by simp, rfl, by decide,
    SumGeneratedHeightMaps_accumulator 2 [dipMap, risingMap]
      [plainLayer, maskedLayer] (by simp) rfl (by decide)
      (by intro gs0 h; simp at h; subst h; rfl)⟩

/-! ## The running extrema and the normalized result -/

/-- Merge of the single plain layer `dipMap`: the first visited cell raises
the maximum and is never compared with the minimum, so the recorded minimum
is `1/4` although the accumulator holds `0`. -/
theorem mergeHeightMaps_dipMap :
    mergeHeightMaps [dipMap] [plainLayer]
      = Except.ok { map := dipMap, minValue := 1 / 4, maxValue := 1 } := by
  simp only [mergeHeightMaps, plainLayer, forLoop_one, List.getElem?_cons_zero,
    GenerationSettingsOf.getChunkSize, List.length_singleton, forLoop_two,
    replicate_two]
  simp [dipMap, mergeCell, readCell, getCell, writeCell, updateMinMax]
  norm_num

/-- Merge of the single plain layer `risingMap`: every cell raises the
maximum, so the minimum keeps its initial value `10000`. -/
theorem mergeHeightMaps_risingMap :
    mergeHeightMaps [risingMap] [plainLayer]
      = Except.ok { map := risingMap, minValue := 10000, maxValue := 1 } := by
  simp only [mergeHeightMaps, plainLayer, forLoop_one, List.getElem?_cons_zero,
    GenerationSettingsOf.getChunkSize, List.length_singleton, forLoop_two,
    replicate_two]
  simp [risingMap, mergeCell, readCell, getCell, writeCell, updateMinMax]
  norm_num

/-- C3 (failing input): one plain layer with the non-flat raw map `dipMap`.
The merged map has its minimum `0` at cell `[0][0]`, yet the returned cell is
`-1/3`, which is outside `[0, 1]` and is not `0`. -/
theorem SumGeneratedHeightMaps_dipMap_out_of_range :
    SumGeneratedHeightMaps [dipMap] [plainLayer]
      = Except.ok [[FVal.fin (-1 / 3), FVal.fin (1 / 3)],
                   [FVal.fin 1, FVal.fin 0]] ∧
    trueMin dipMap = some 0 ∧ getCell dipMap 0 0 = some 0 ∧
    ¬ FVal.inUnit (FVal.fin (-1 / 3)) := by
  refine ⟨?_, ?_, ?_, ?_⟩
  · simp only [SumGeneratedHeightMaps, mergeHeightMaps_dipMap]
    simp [NormalizeMap, dipMap, forLoop_two, replicate_two, normalizeCell,
      readCell, getCell, writeCell, InverseLerp, fdiv]
    norm_num
  · simp [trueMin, dipMap]
  · simp [getCell, dipMap]
  · simp [FVal.inUnit]
    norm_num

/-- C5 (failing input): with no layer at all the merge reads
`generationSettings[0]` of an empty vector, so both `SumGeneratedHeightMaps`
and `GenerateMap` end in an out-of-range access instead of returning a grid
of zeros. -/
theorem GenerateMap_empty_out_of_range
    (createHeightMap : GenerationMethodType → GenerationSettings → HeightMap) :
    SumGeneratedHeightMaps [] [] = Except.error Err.outOfRange ∧
    GenerateMap createHeightMap emptyConfig = Except.error Err.outOfRange := by
  constructor
  · simp [SumGeneratedHeightMaps, mergeHeightMaps]
  · simp [GenerateMap, emptyConfig, SumGeneratedHeightMaps, mergeHeightMaps]

/-- C6 (failing input): one plain layer of weight 1 with the raw map
`risingMap`, whose true minimum is `0` and true maximum is `1`. The result of
`SumGeneratedHeightMaps` differs from `NormalizeMap(rawMap, 0, 1)`, which is
the raw map itself. -/
theorem SumGeneratedHeightMaps_risingMap_differs :
    trueMin risingMap = some 0 ∧ trueMax risingMap = some 1 ∧
    SumGeneratedHeightMaps [risingMap] [plainLayer]
      = Except.ok [[FVal.fin (10000 / 9999), FVal.fin (19999 / 19998)],
                   [FVal.fin (13333 / 13332), FVal.fin 1]] ∧
    NormalizeMap risingMap 0 1
      = Except.ok [[FVal.fin 0, FVal.fin (1 / 2)],
                   [FVal.fin (1 / 4), FVal.fin 1]] ∧
    SumGeneratedHeightMaps [risingMap] [plainLayer]
      ≠ NormalizeMap risingMap 0 1 := by
  have h1 : SumGeneratedHeightMaps [risingMap] [plainLayer]
      = Except.ok [[FVal.fin (10000 / 9999), FVal.fin (19999 / 19998)],
                   [FVal.fin (13333 / 13332), FVal.fin 1]] := by
    simp only [SumGeneratedHeightMaps, mergeHeightMaps_risingMap]
    simp [NormalizeMap, risingMap, forLoop_two, replicate_two, normalizeCell,
      readCell, getCell, writeCell, InverseLerp, fdiv]
    norm_num
  have h2 : NormalizeMap risingMap 0 1
      = Except.ok [[FVal.fin 0, FVal.fin (1 / 2)],
                   [FVal.fin (1 / 4), FVal.fin 1]] := by
    simp [NormalizeMap, risingMap, forLoop_two, replicate_two, normalizeCell,
      readCell, getCell, writeCell, InverseLerp, fdiv]
  refine ⟨?_, ?_, h1, h2, ?_⟩
  · simp [trueMin, risingMap]
  · simp [trueMax, risingMap]
    norm_num
  · rw [h1, h2]
    simp

/-! ## The subtract flag -/

theorem withSubtract_length (settings : List GenerationSettings) (i : Nat)
    (b : Bool) : (withSubtract settings i b).length = settings.length := by
  unfold withSubtract
  cases h : settings[i]? with
  | none => rfl
  | some gs => simp

theorem withSubtract_getElem?_ne (settings : List GenerationSettings)
    (i j : Nat) (b : Bool) (hij : j ≠ i) :
    (withSubtract settings i b)[j]? = settings[j]? := by
  unfold withSubtract
  cases h : settings[i]? with
  | none => rfl
  | some gs =>
    have : ¬ i = j := fun h => hij h.symm
    simp [List.getElem?_set, this]

theorem withSubtract_getElem?_eq (settings : List GenerationSettings)
    (i : Nat) (b : Bool) (gs : GenerationSettings) (h : settings[i]? = some gs) :
    (withSubtract settings i b)[i]? = some { gs with subtractFromMap := b } := by
  have hi : i < settings.length := by
    by_contra hcon
    rw [List.getElem?_eq_none (by omega)] at h
    exact Option.noConfusion h
  unfold withSubtract
  simp [h, List.getElem?_set, hi]

theorem withSubtract_chunkSize (settings : List GenerationSettings) (i : Nat)
    (b : Bool) (n : Nat)
    (hchunk : ∀ gs0, settings[0]? = some gs0 → gs0.getChunkSize = n) :
    ∀ gs0, (withSubtract settings i b)[0]? = some gs0 → gs0.getChunkSize = n := by
  intro gs0 h0
  by_cases hi : (0 : Nat) = i
  · subst hi
    cases hs : settings[0]? with
    | none =>
      rw [withSubtract, hs] at h0
      rw [hs] at h0
      exact Option.noConfusion h0
    | some gs =>
      rw [withSubtract_getElem?_eq settings 0 b gs hs] at h0
      have := hchunk gs hs
      cases h0
      exact this
  · rw [withSubtract_getElem?_ne settings i 0 b hi] at h0
    exact hchunk gs0 h0

theorem specTerm_withSubtract_ne (heightMaps : List HeightMap)
    (settings : List GenerationSettings) (i j : Nat) (b : Bool) (x y : Nat)
    (hij : j ≠ i) :
    specTerm heightMaps (withSubtract settings i b) j x y
      = specTerm heightMaps settings j x y := by
  simp only [specTerm, withSubtract_getElem?_ne settings i j b hij]

theorem specTerm_withSubtract_eq (heightMaps : List HeightMap)
    (settings : List GenerationSettings) (i : Nat) (b : Bool) (x y : Nat)
    (hi : i < settings.length) :
    specTerm heightMaps (withSubtract settings i b) i x y
      = (if b then -1 else 1) * specUnsigned heightMaps settings i x y := by
  have hgs : settings[i]? = some settings[i] := List.getElem?_eq_getElem hi
  simp only [specTerm, specUnsigned,
    withSubtract_getElem?_eq settings i b _ hgs, hgs]
  cases heightMaps[i]? with
  | none => simp
  | some raw =>
    simp only [specSign, specMask]
    ring

theorem sum_range_single (k i : Nat) (d : ℚ) :
    ((List.range k).map (fun j => if j = i then d else 0)).sum
      = if i < k then d else 0 := by
  induction k with
  | zero => simp
  | succ k ih =>
    rw [List.range_succ, List.map_append, List.sum_append, ih]
    by_cases h1 : i < k
    · have h2 : ¬ k = i := by omega
      have h3 : i < k + 1 := by omega
      simp [h1, h2, h3]
    · by_cases h2 : k = i
      · subst h2; simp
      · have h3 : ¬ i < k + 1 := by omega
        simp [h1, h2, h3]

/-- The accumulator sum of a settings list whose layer `i` has its subtract
flag forced to `b`: the other layers' total plus or minus the unsigned
contribution of layer `i`. -/
theorem specSum_withSubtract (heightMaps : List HeightMap)
    (settings : List GenerationSettings) (i : Nat) (b : Bool) (x y : Nat)
    (hi : i < heightMaps.length) (hlen : settings.length = heightMaps.length) :
    ((List.range heightMaps.length).map
        (fun j => specTerm heightMaps (withSubtract settings i b) j x y)).sum
      = ((List.range heightMaps.length).map
          (fun j => if j = i then 0 else specTerm heightMaps settings j x y)).sum
        + (if b then -1 else 1) * specUnsigned heightMaps settings i x y := by
  have hfun : (fun j => specTerm heightMaps (withSubtract settings i b) j x y)
      = (fun j => (if j = i then 0 else specTerm heightMaps settings j x y)
          + (if j = i then
              (if b then -1 else 1) * specUnsigned heightMaps settings i x y
             else 0)) := by
    funext j
    by_cases hj : j = i
    · subst hj
      simp [specTerm_withSubtract_eq heightMaps settings j b x y (by omega)]
    · simp [hj, specTerm_withSubtract_ne heightMaps settings i j b x y hj]
  rw [hfun, List.sum_map_add, sum_range_single]
  simp [hi]

/-- C8 (as stated, refuted): one plain layer on the 1 by 1 raw map `[[1]]`.
The additive accumulator is `1`, the subtractive one `-1`; they sum to `0`,
not to the unsigned contribution `1` of the layer. -/
theorem subtract_flag_counterexample :
    mergeHeightMaps [[[1]]] (withSubtract [unitLayer] 0 false)
      = Except.ok { map := [[1]], minValue := 10000, maxValue := 1 } ∧
    mergeHeightMaps [[[1]]] (withSubtract [unitLayer] 0 true)
      = Except.ok { map := [[-1]], minValue := 10000, maxValue := -1 } ∧
    specUnsigned [[[1]]] [unitLayer] 0 0 0 = 1 ∧
    (1 : ℚ) + (-1) ≠ 1 := by
  refine ⟨?_, ?_, ?_, by norm_num⟩
  · simp only [mergeHeightMaps, withSubtract, unitLayer, forLoop_one,
      List.getElem?_cons_zero, List.set_cons_zero,
      GenerationSettingsOf.getChunkSize, List.length_singleton]
    simp [mergeCell, readCell, getCell, writeCell, updateMinMax,
      GenerationSettingsOf.getWeight, GenerationSettingsOf.isSubtractFromMap,
      GenerationSettingsOf.isFirstHeightMapAsMask]
    norm_num
  · simp only [mergeHeightMaps, withSubtract, unitLayer, forLoop_one,
      List.getElem?_cons_zero, List.set_cons_zero,
      GenerationSettingsOf.getChunkSize, List.length_singleton]
    simp [mergeCell, readCell, getCell, writeCell, updateMinMax,
      GenerationSettingsOf.getWeight, GenerationSettingsOf.isSubtractFromMap,
      GenerationSettingsOf.isFirstHeightMapAsMask]
  · simp [specUnsigned, unitLayer, cellD, getCell, specMask]

/-- C8 (amended): for settings that differ only in the subtract flag of
layer `i`, the additive accumulator minus the subtractive accumulator is, at
every cell, exactly twice the unsigned contribution
`rawMaps[i][cell] * weight_i * mask_i` of layer `i`, and the two accumulators
sum to twice the total of the other layers. -/
theorem subtract_flag_mirror (n : Nat) (heightMaps : List HeightMap)
    (settings : List GenerationSettings) (i : Nat)
    (hne : heightMaps ≠ [])
    (hlen : settings.length = heightMaps.length)
    (hsq : ∀ m ∈ heightMaps, Square n m)
    (hchunk : ∀ gs0, settings[0]? = some gs0 → gs0.getChunkSize = n)
    (hi : i < heightMaps.length) :
    ∃ stAdd stSub,
      mergeHeightMaps heightMaps (withSubtract settings i false)
        = Except.ok stAdd ∧
      mergeHeightMaps heightMaps (withSubtract settings i true)
        = Except.ok stSub ∧
      ∀ x y, x < n → y < n →
        ∃ a b, getCell stAdd.map x y = some a ∧ getCell stSub.map x y = some b ∧
          a - b = 2 * specUnsigned heightMaps settings i x y ∧
          a + b = 2 * ((List.range heightMaps.length).map
            (fun j => if j = i then 0
              else specTerm heightMaps settings j x y)).sum := by
  obtain ⟨stAdd, hAdd, _, hcA⟩ :=
    mergeHeightMaps_cells n heightMaps (withSubtract settings i false) hne
      (by rw [withSubtract_length]; exact hlen) hsq
      (withSubtract_chunkSize settings i false n hchunk)
  obtain ⟨stSub, hSub, _, hcS⟩ :=
    mergeHeightMaps_cells n heightMaps (withSubtract settings i true) hne
      (by rw [withSubtract_length]; exact hlen) hsq
      (withSubtract_chunkSize settings i true n hchunk)
  refine ⟨stAdd, stSub, hAdd, hSub, ?_⟩
  intro x y hx hy
  refine ⟨_, _, hcA x y hx hy, hcS x y hx hy, ?_, ?_⟩
  · simp only [specAccumulator,
      specSum_withSubtract heightMaps settings i _ x y hi hlen]
    simp
    ring
  · simp only [specAccumulator,
      specSum_withSubtract heightMaps settings i _ x y hi hlen]
    simp
    ring

/-- Witness for C8 (amended): a plain and a masked layer on 2 by 2 maps,
flipping the subtract flag of layer 1. -/
theorem subtract_flag_mirror_witness :
    [dipMap, risingMap] ≠ [] ∧
    [plainLayer, maskedLayer].length = [dipMap, risingMap].length ∧
    (∀ m ∈ [dipMap, risingMap], Square 2 m) ∧
    1 < [dipMap, risingMap].length ∧
    ∃ stAdd stSub,
      mergeHeightMaps [dipMap, risingMap]
          (withSubtract [plainLayer, maskedLayer] 1 false) = Except.ok stAdd ∧
      mergeHeightMaps [dipMap, risingMap]
          (withSubtract [plainLayer, maskedLayer] 1 true) = Except.ok stSub ∧
      ∀ x y, x < 2 → y < 2 →
        ∃ a b, getCell stAdd.map x y = some a ∧ getCell stSub.map x y = some b ∧
          a - b = 2 * specUnsigned [dipMap, risingMap]
            [plainLayer, maskedLayer] 1 x y ∧
          a + b = 2 * ((List.range [dipMap, risingMap].length).map
            (fun j => if j = 1 then 0
              else specTerm [dipMap, risingMap] [plainLayer, maskedLayer]
                j x y)).sum :=
  ⟨by simp, rfl, by decide, by decide,
    subtract_flag_mirror 2 [dipMap, risingMap] [plainLayer, maskedLayer] 1
      (by simp) rfl (by decide) (by intro gs0 h; simp at h; subst h; rfl)
      (by decide)⟩

/-! ## PopulateGenerationSettingsForConfig -/

theorem applyMasks_fields {F : Type} (config : ConfigurationOf F)
    (p : MethodProperties F) (settings : GenerationSettingsOf F) (r : RandState) :
    (applyMasks config p settings r).1.octaves = settings.octaves ∧
    (applyMasks config p settings r).1.scale = settings.scale ∧
    (applyMasks config p settings r).1.weight = settings.weight ∧
    (applyMasks config p settings r).1.persistance = settings.persistance ∧
    (applyMasks config p settings r).1.smoothing = settings.smoothing ∧
    (applyMasks config p settings r).1.chunkSize = settings.chunkSize := by
  unfold applyMasks
  split_ifs <;> exact ⟨rfl, rfl, rfl, rfl, rfl, rfl⟩

/-- A layer that stays active is the built settings with the flags applied. -/
theorem populateLayer_some {F : Type} [FloatLike F] (c : Categories)
    (config : ConfigurationOf F) (prop : String × MethodProperties F)
    (r : RandState) (s : GenerationSettingsOf F)
    (h : (populateLayer c config prop r).1 = some s) :
    ∃ r', s = (applyMasks config prop.2
      (buildSettings c config prop.1 prop.2 r).1 r').1 := by
  unfold populateLayer at h
  simp only at h
  split_ifs at h with h1 h2
  · simp only [Option.some.injEq] at h
    exact ⟨_, h.symm⟩
  · simp only [Option.some.injEq] at h
    exact ⟨_, h.symm⟩

/-- A layer whose activation draw deactivates it yields no settings and
leaves the generator after that draw. -/
theorem populateLayer_deactivated {F : Type} [FloatLike F] (c : Categories)
    (config : ConfigurationOf F) (prop : String × MethodProperties F)
    (r : RandState)
    (h : deactivated config (buildSettings c config prop.1 prop.2 r).2 = true) :
    populateLayer c config prop r
      = (none, (rand (buildSettings c config prop.1 prop.2 r).2).2) := by
  unfold deactivated at h
  simp only [Bool.and_eq_true, decide_eq_true_eq] at h
  unfold populateLayer
  simp only [h.1, if_true, h.2]

/-- Every settings entry the loop appends satisfies a property that every
layer the iteration keeps satisfies. -/
theorem populateLoop_mem {F : Type} [FloatLike F] (c : Categories)
    (config : ConfigurationOf F)
    (P : String × MethodProperties F → GenerationSettingsOf F → Prop)
    (hP : ∀ prop r s, (populateLayer c config prop r).1 = some s → P prop s)
    (props : List (String × MethodProperties F)) :
    ∀ (arr : List (GenerationSettingsOf F)) (r : RandState)
      (s : GenerationSettingsOf F),
      s ∈ (populateLoop c config props arr r).1 →
      s ∈ arr ∨ ∃ prop ∈ props, P prop s := by
  induction props with
  | nil =>
    intro arr r s hs
    exact Or.inl hs
  | cons prop rest ih =>
    intro arr r s hs
    unfold populateLoop at hs
    cases hl : populateLayer c config prop r with
    | mk o r' =>
      rw [hl] at hs
      cases o with
      | none =>
        rcases ih arr r' s hs with h | ⟨q, hq, hPq⟩
        · exact Or.inl h
        · exact Or.inr ⟨q, List.mem_cons_of_mem _ hq, hPq⟩
      | some settings =>
        rcases ih (arr ++ [settings]) r' s hs with h | ⟨q, hq, hPq⟩
        · rw [List.mem_append, List.mem_singleton] at h
          rcases h with h | h
          · exact Or.inl h
          · refine Or.inr ⟨prop, List.mem_cons_self _ _, ?_⟩
            rw [h]
            exact hP prop r settings (by rw [hl])
        · exact Or.inr ⟨q, List.mem_cons_of_mem _ hq, hPq⟩

/-- The loop started with entries `arr` appends to them what it produces
when started empty. -/
theorem populateLoop_acc {F : Type} [FloatLike F] (c : Categories)
    (config : ConfigurationOf F) (props : List (String × MethodProperties F)) :
    ∀ (arr : List (GenerationSettingsOf F)) (r : RandState),
      populateLoop c config props arr r
        = (arr ++ (populateLoop c config props [] r).1,
           (populateLoop c config props [] r).2) := by
  induction props with
  | nil =>
    intro arr r
    simp [populateLoop]
  | cons prop rest ih =>
    intro arr r
    unfold populateLoop
    cases hl : populateLayer c config prop r with
    | mk o r' =>
      cases o with
      | none => exact ih arr r'
      | some settings =>
        simp only
        rw [ih (arr ++ [settings]) r', ih ([] ++ [settings]) r']
        simp

/-- One iteration of the loop: the layer is appended unless it was
deactivated. -/
theorem populateLoop_cons {F : Type} [FloatLike F] (c : Categories)
    (config : ConfigurationOf F) (prop : String × MethodProperties F)
    (rest : List (String × MethodProperties F))
    (arr : List (GenerationSettingsOf F)) (r : RandState) :
    populateLoop c config (prop :: rest) arr r
      = populateLoop c config rest
          (match (populateLayer c config prop r).1 with
           | none => arr
           | some settings => arr ++ [settings])
          (populateLayer c config prop r).2 := by
  rw [populateLoop]
  cases hl : populateLayer c config prop r with
  | mk o r' =>
    cases o with
    | none => rfl
    | some settings => rfl

/-- The loop over `xs ++ ys` is the loop over `ys` continued from the result
of the loop over `xs`. -/
theorem populateLoop_append {F : Type} [FloatLike F] (c : Categories)
    (config : ConfigurationOf F) (xs ys : List (String × MethodProperties F)) :
    ∀ (arr : List (GenerationSettingsOf F)) (r : RandState),
      populateLoop c config (xs ++ ys) arr r
        = populateLoop c config ys (populateLoop c config xs arr r).1
            (populateLoop c config xs arr r).2 := by
  induction xs with
  | nil =>
    intro arr r
    simp [populateLoop]
  | cons prop rest ih =>
    intro arr r
    simp only [List.cons_append, populateLoop_cons]
    exact ih _ _

/-- A deactivated layer is left out of the settings array, for finite and
for non-finite configured values alike: the array is what the layers before
it produce followed by what the layers after it produce. -/
theorem populate_deactivated_left_out {F : Type} [FloatLike F] (c : Categories)
    (pre post : List (String × MethodProperties F))
    (prop : String × MethodProperties F)
    (config : ConfigurationOf F) (r : RandState)
    (hdeact : deactivated config
      (buildSettings c config prop.1 prop.2
        (PopulateGenerationSettingsForConfig c (some pre) config r).2).2 = true) :
    (PopulateGenerationSettingsForConfig c (some (pre ++ prop :: post))
        config r).1.generationSettingsArr
      = (PopulateGenerationSettingsForConfig c (some pre)
          config r).1.generationSettingsArr
        ++ (PopulateGenerationSettingsForConfig c (some post) config
            (rand (buildSettings c config prop.1 prop.2
              (PopulateGenerationSettingsForConfig c (some pre)
                config r).2).2).2).1.generationSettingsArr := by
  simp only [PopulateGenerationSettingsForConfig] at hdeact ⊢
  rw [populateLoop_append, populateLoop_cons,
    populateLayer_deactivated c config prop _ hdeact]
  simp only
  rw [populateLoop_acc]

/-- Every settings entry produced by the loop carries the configured map
size as its chunk size. -/
theorem populate_chunkSize {F : Type} [FloatLike F] (c : Categories)
    (subproperties : List (String × MethodProperties F))
    (config : ConfigurationOf F) (r : RandState) (s : GenerationSettingsOf F)
    (hs : s ∈ (PopulateGenerationSettingsForConfig c (some subproperties)
      config r).1.generationSettingsArr) :
    s.chunkSize = config.mapSize := by
  simp only [PopulateGenerationSettingsForConfig] at hs
  rcases populateLoop_mem c config (fun _ s => s.chunkSize = config.mapSize)
      (by
        intro prop r0 s0 h0
        obtain ⟨r1, rfl⟩ := populateLayer_some c config prop r0 s0 h0
        rw [(applyMasks_fields config prop.2 _ r1).2.2.2.2.2]
        rfl)
      subproperties [] r s hs with h | ⟨_, _, h⟩
  · exact absurd h (List.not_mem_nil s)
  · exact h

/-! ## The clamped values -/

/-- Clamping `NaN` gives `NaN`: both comparisons of `std::clamp` are false. -/
theorem clamp_fval_nan (o lo hi : ℚ) :
    clamp FloatLike.lt (FloatLike.add FVal.nan (FloatLike.ofRat o))
      (FloatLike.ofRat lo) (FloatLike.ofRat hi) = FVal.nan := by
  show clamp FVal.lt (FVal.add FVal.nan (FVal.fin o)) (FVal.fin lo) (FVal.fin hi)
    = FVal.nan
  simp [FVal.add, clamp, FVal.lt]

/-- The configured values of `wildProperties` are not `NaN`, so the settings
built from them satisfy all five bounds. -/
theorem wildSettings_inBounds : InBounds wildSettings := by
  simp [InBounds, OctavesInBounds, FVal.within, wildSettings]
  norm_num

/-! ## Inactive layers and the mask reference -/

/-- Three configured layers; the first one is deactivated by its draw, so the
settings array holds the cosine layer and the masked ridged layer only. -/
theorem populate_first_layer_inactive :
    (PopulateGenerationSettingsForConfig sampleCategories
      (some [("sine", plainProperties), ("cosine", plainProperties),
             ("ridged", maskedProperties)])
      activationConfig sevenRand).1.generationSettingsArr
    = [{ methodType := GenerationMethodType.Cosine, octaves := 1, scale := 1,
         weight := 1, persistance := 1 / 2, smoothing := 1 / 2, chunkSize := 2 },
       { methodType := GenerationMethodType.Ridged, octaves := 1, scale := 1,
         weight := 1, persistance := 1 / 2, smoothing := 1 / 2, chunkSize := 2,
         firstHeightMapAsMask := true }] := by
  simp [PopulateGenerationSettingsForConfig, populateLoop, populateLayer,
    buildSettings, applyMasks, GetRandInRange, truncToInt, wrapInt,
    activationConfig, plainProperties, maskedProperties, sampleCategories,
    methodTypeOf, clamp, intLt, FloatLike.lt, FloatLike.add, FloatLike.ofRat,
    sevenRand, rand]
  norm_num

/-- C7 (as stated, refuted): the first configured layer is inactive and the
third layer is masked. Generation raises no error: it returns a height map,
and the masked layer was masked against the raw map of the cosine layer (the
accumulator is the cosine map plus the ridged map times the cosine map). -/
theorem GenerateMap_inactive_reference_counterexample :
    mergeHeightMaps [dipMap, [[1, 1], [1, 1]]]
      (PopulateGenerationSettingsForConfig sampleCategories
        (some [("sine", plainProperties), ("cosine", plainProperties),
               ("ridged", maskedProperties)])
        activationConfig sevenRand).1.generationSettingsArr
      = Except.ok { map := [[0, 1], [2, 1 / 2]], minValue := 0, maxValue := 2 } ∧
    GenerateMap sampleCreate
      (PopulateGenerationSettingsForConfig sampleCategories
        (some [("sine", plainProperties), ("cosine", plainProperties),
               ("ridged", maskedProperties)])
        activationConfig sevenRand).1
      = Except.ok [[FVal.fin 0, FVal.fin (1 / 2)],
                   [FVal.fin 1, FVal.fin (1 / 4)]] := by
  have hm : mergeHeightMaps [dipMap, [[1, 1], [1, 1]]]
      (PopulateGenerationSettingsForConfig sampleCategories
        (some [("sine", plainProperties), ("cosine", plainProperties),
               ("ridged", maskedProperties)])
        activationConfig sevenRand).1.generationSettingsArr
      = Except.ok { map := [[0, 1], [2, 1 / 2]], minValue := 0, maxValue := 2 } := by
    rw [populate_first_layer_inactive]
    simp only [mergeHeightMaps, forLoop_one, List.getElem?_cons_zero,
      GenerationSettingsOf.getChunkSize, List.length_cons, List.length_nil,
      zero_add, Nat.reduceAdd, forLoop_two, replicate_two]
    simp [dipMap, mergeCell, readCell, getCell, writeCell, updateMinMax,
      GenerationSettingsOf.getWeight, GenerationSettingsOf.isSubtractFromMap,
      GenerationSettingsOf.isFirstHeightMapAsMask,
      GenerationSettingsOf.isInvertFirstHeightMapMask]
    norm_num
  refine ⟨hm, ?_⟩
  have hmaps : List.map
      (fun genSettings => sampleCreate genSettings.getMethodType genSettings)
      (PopulateGenerationSettingsForConfig sampleCategories
        (some [("sine", plainProperties), ("cosine", plainProperties),
               ("ridged", maskedProperties)])
        activationConfig sevenRand).1.generationSettingsArr
      = [dipMap, [[1, 1], [1, 1]]] := by
    rw [populate_first_layer_inactive]
    rfl
  simp only [GenerateMap, SumGeneratedHeightMaps, hmaps, hm]
  simp [NormalizeMap, forLoop_two, replicate_two, normalizeCell,
    readCell, getCell, writeCell, InverseLerp, fdiv]
  norm_num

/-- C7 (amended): generation has no configuration error. A layer that line
98 deactivates is left out of `generationSettingsArr`: the array is what the
layers before it produce followed by what the layers after it produce. When
that array is not empty and the raw maps are square of the configured side,
`GenerateMap` returns a height map of that side, and the mask reference
`rawMaps[0]` of the accumulator sum is the raw map of the first entry of the
array, that is of the first layer that stayed active. -/
theorem GenerateMap_masks_against_first_active (c : Categories)
    (pre post : List (String × MethodProperties ℚ))
    (prop : String × MethodProperties ℚ)
    (config : Configuration) (r : RandState)
    (createHeightMap : GenerationMethodType → GenerationSettings → HeightMap)
    (hdeact : deactivated config
      (buildSettings c config prop.1 prop.2
        (PopulateGenerationSettingsForConfig c (some pre) config r).2).2 = true)
    (hne : (PopulateGenerationSettingsForConfig c (some (pre ++ prop :: post))
      config r).1.generationSettingsArr ≠ [])
    (hsq : ∀ s ∈ (PopulateGenerationSettingsForConfig c
      (some (pre ++ prop :: post)) config r).1.generationSettingsArr,
      Square config.mapSize (createHeightMap s.getMethodType s)) :
    (PopulateGenerationSettingsForConfig c (some (pre ++ prop :: post))
        config r).1.generationSettingsArr
      = (PopulateGenerationSettingsForConfig c (some pre)
          config r).1.generationSettingsArr
        ++ (PopulateGenerationSettingsForConfig c (some post) config
            (rand (buildSettings c config prop.1 prop.2
              (PopulateGenerationSettingsForConfig c (some pre)
                config r).2).2).2).1.generationSettingsArr ∧
    (∀ s0, (PopulateGenerationSettingsForConfig c (some (pre ++ prop :: post))
        config r).1.generationSettingsArr.head? = some s0 →
      ((PopulateGenerationSettingsForConfig c (some (pre ++ prop :: post))
        config r).1.generationSettingsArr.map
          (fun s => createHeightMap s.getMethodType s)).headD []
        = createHeightMap s0.getMethodType s0) ∧
    ∃ st out,
      mergeHeightMaps
        ((PopulateGenerationSettingsForConfig c (some (pre ++ prop :: post))
          config r).1.generationSettingsArr.map
            (fun s => createHeightMap s.getMethodType s))
        (PopulateGenerationSettingsForConfig c (some (pre ++ prop :: post))
          config r).1.generationSettingsArr = Except.ok st ∧
      (∀ x y, x < config.mapSize → y < config.mapSize →
        getCell st.map x y = some (specAccumulator
          ((PopulateGenerationSettingsForConfig c (some (pre ++ prop :: post))
            config r).1.generationSettingsArr.map
              (fun s => createHeightMap s.getMethodType s))
          (PopulateGenerationSettingsForConfig c (some (pre ++ prop :: post))
            config r).1.generationSettingsArr x y)) ∧
      GenerateMap createHeightMap
        (PopulateGenerationSettingsForConfig c (some (pre ++ prop :: post))
          config r).1
        = Except.ok out ∧
      Square config.mapSize out := by
  refine ⟨?_, ?_, ?_⟩
  · exact populate_deactivated_left_out c pre post prop config r hdeact
  · intro s0 h0
    cases harr : (PopulateGenerationSettingsForConfig c
        (some (pre ++ prop :: post)) config r).1.generationSettingsArr with
    | nil => rw [harr] at h0; exact absurd h0 (by simp)
    | cons a l =>
      rw [harr] at h0
      simp only [List.head?_cons, Option.some.injEq] at h0
      subst h0
      rfl
  · obtain ⟨st, hst, hsqs, hc⟩ :=
      mergeHeightMaps_cells config.mapSize
        ((PopulateGenerationSettingsForConfig c (some (pre ++ prop :: post))
          config r).1.generationSettingsArr.map
            (fun s => createHeightMap s.getMethodType s))
        (PopulateGenerationSettingsForConfig c (some (pre ++ prop :: post))
          config r).1.generationSettingsArr
        (by simpa using hne) (by simp)
        (by
          intro m hm
          rw [List.mem_map] at hm
          obtain ⟨s, hs, rfl⟩ := hm
          exact hsq s hs)
        (by
          intro gs0 h0
          exact populate_chunkSize c (pre ++ prop :: post) config r gs0
            (List.getElem?_mem h0))
    obtain ⟨out, hout, hsqo, _⟩ :=
      NormalizeMap_cells config.mapSize st.map st.minValue st.maxValue hsqs
    refine ⟨st, out, hst, hc, ?_, hsqo⟩
    simp only [GenerateMap, SumGeneratedHeightMaps, hst, hout]

/-- Witness for C7 (amended): three configured layers of which the first is
deactivated by its draw; the array holds the cosine layer and the masked
ridged layer, and the mask reference is the cosine map. -/
theorem GenerateMap_masks_against_first_active_witness :
    deactivated activationConfig
      (buildSettings sampleCategories activationConfig "sine" plainProperties
        (PopulateGenerationSettingsForConfig sampleCategories (some [])
          activationConfig sevenRand).2).2 = true ∧
    (PopulateGenerationSettingsForConfig sampleCategories
        (some ([] ++ ("sine", plainProperties) ::
          [("cosine", plainProperties), ("ridged", maskedProperties)]))
        activationConfig sevenRand).1.generationSettingsArr
      = (PopulateGenerationSettingsForConfig sampleCategories (some [])
          activationConfig sevenRand).1.generationSettingsArr
        ++ (PopulateGenerationSettingsForConfig sampleCategories
            (some [("cosine", plainProperties), ("ridged", maskedProperties)])
            activationConfig
            (rand (buildSettings sampleCategories activationConfig "sine"
              plainProperties
              (PopulateGenerationSettingsForConfig sampleCategories (some [])
                activationConfig sevenRand).2).2).2).1.generationSettingsArr ∧
    (∀ s0, (PopulateGenerationSettingsForConfig sampleCategories
        (some ([] ++ ("sine", plainProperties) ::
          [("cosine", plainProperties), ("ridged", maskedProperties)]))
        activationConfig sevenRand).1.generationSettingsArr.head? = some s0 →
      ((PopulateGenerationSettingsForConfig sampleCategories
        (some ([] ++ ("sine", plainProperties) ::
          [("cosine", plainProperties), ("ridged", maskedProperties)]))
        activationConfig sevenRand).1.generationSettingsArr.map
          (fun s => sampleCreate s.getMethodType s)).headD []
        = sampleCreate s0.getMethodType s0) ∧
    ∃ st out,
      mergeHeightMaps
        ((PopulateGenerationSettingsForConfig sampleCategories
          (some ([] ++ ("sine", plainProperties) ::
            [("cosine", plainProperties), ("ridged", maskedProperties)]))
          activationConfig sevenRand).1.generationSettingsArr.map
            (fun s => sampleCreate s.getMethodType s))
        (PopulateGenerationSettingsForConfig sampleCategories
          (some ([] ++ ("sine", plainProperties) ::
            [("cosine", plainProperties), ("ridged", maskedProperties)]))
          activationConfig sevenRand).1.generationSettingsArr = Except.ok st ∧
      (∀ x y, x < activationConfig.mapSize → y < activationConfig.mapSize →
        getCell st.map x y = some (specAccumulator
          ((PopulateGenerationSettingsForConfig sampleCategories
            (some ([] ++ ("sine", plainProperties) ::
              [("cosine", plainProperties), ("ridged", maskedProperties)]))
            activationConfig sevenRand).1.generationSettingsArr.map
              (fun s => sampleCreate s.getMethodType s))
          (PopulateGenerationSettingsForConfig sampleCategories
            (some ([] ++ ("sine", plainProperties) ::
              [("cosine", plainProperties), ("ridged", maskedProperties)]))
            activationConfig sevenRand).1.generationSettingsArr x y)) ∧
      GenerateMap sampleCreate
        (PopulateGenerationSettingsForConfig sampleCategories
          (some ([] ++ ("sine", plainProperties) ::
            [("cosine", plainProperties), ("ridged", maskedProperties)]))
          activationConfig sevenRand).1
        = Except.ok out ∧
      Square activationConfig.mapSize out :=
  have hd : deactivated activationConfig
      (buildSettings sampleCategories activationConfig "sine" plainProperties
        (PopulateGenerationSettingsForConfig sampleCategories (some [])
          activationConfig sevenRand).2).2 = true := by
    simp [deactivated, PopulateGenerationSettingsForConfig, populateLoop,
      buildSettings, GetRandInRange, truncToInt, wrapInt, activationConfig,
      sevenRand, rand]
  ⟨hd,
    GenerateMap_masks_against_first_active sampleCategories []
      [("cosine", plainProperties), ("ridged", maskedProperties)]
      ("sine", plainProperties) activationConfig sevenRand sampleCreate hd
      (by
        have h := populate_first_layer_inactive
        simp only [List.nil_append]
        rw [h]
        simp)
      (by
        have h := populate_first_layer_inactive
        simp only [List.nil_append]
        rw [h]
        intro s hs
        simp only [List.mem_cons, List.mem_singleton, List.not_mem_nil,
          or_false] at hs
        rcases hs with h1 | h1 <;> subst h1 <;> decide)⟩

end HeightMapGen
